import Mathlib

/-!
Shallow embedding of the AI-sorter plugin core (`src/main.js`) and proofs of
the specification's claims about it.

The embedding models the orchestration pipeline: settings, API-key selection
(`getCurrentApiKey`), target-folder auto-detection (`autoDetectTargetFolders`),
source-file selection and batch scheduling (`performSort`), the per-note
classify-and-move task (`classifyAndMoveNote`), classifier post-processing
(`classifyNote`), and the per-provider response-field extraction
(`data.candidates?...?.text || null` and friends).  External effects — vault
reads, the three provider HTTP calls, folder creation and renames — are
supplied as oracles in a per-document environment, and every observable
action is recorded in an event trace so that claims about "no network call",
"no document read" and pacing delays can be stated.
-/

namespace AISorter

/-- Whitespace characters removed by JavaScript's `String.prototype.trim`
(ASCII subset; the source only ever compares trims against emptiness). -/
def isJsWhitespace (c : Char) : Bool :=
  c == ' ' || c == '\t' || c == '\n' || c == '\r' || c == '\x0b' || c == '\x0c'

/-- Model of JavaScript `s.trim()`: drop whitespace from both ends. -/
def jsTrim (s : String) : String :=
  String.mk (((s.data.dropWhile isJsWhitespace).reverse.dropWhile isJsWhitespace).reverse)

/-- Plugin settings object (`DEFAULT_SETTINGS` shape in `src/main.js`). -/
structure Settings where
  aiModel : String
  geminiApiKey : String
  claudeApiKey : String
  gptApiKey : String
  sourceFolder : String
  useAutoDetection : Bool
  targetFolders : List String
  maxWorkers : Nat
deriving Repr, DecidableEq

/-- The literal `DEFAULT_SETTINGS` of `src/main.js`. -/
def DEFAULT_SETTINGS : Settings :=
  { aiModel := "gemini", geminiApiKey := "", claudeApiKey := "", gptApiKey := ""
    sourceFolder := "", useAutoDetection := true
    targetFolders := ["Algorithmique", "Automatique", "Maths", "TP", "Electronique"]
    maxWorkers := 10 }

/-- The `getCurrentApiKey` switch on `settings.aiModel`. -/
def getCurrentApiKey (s : Settings) : String :=
  if s.aiModel == "gemini" then s.geminiApiKey
  else if s.aiModel == "claude" then s.claudeApiKey
  else if s.aiModel == "gpt" then s.gptApiKey
  else ""

/-- A loaded vault entry as seen by `getAllLoadedFiles` (folder or file). -/
structure VaultEntry where
  isFolder : Bool
  path : String
  name : String
deriving Repr, DecidableEq

/-- `autoDetectTargetFolders`: names of loaded entries that are folders whose
path contains no slash (top-level containers). -/
def autoDetectTargetFolders (entries : List VaultEntry) : List String :=
  (entries.filter fun e => e.isFolder && !(e.path.data.contains '/')).map VaultEntry.name

/-- A markdown file of the vault (`path` is the full path, `name` the base name). -/
structure VaultFile where
  path : String
  name : String
deriving Repr, DecidableEq

/-- The source-folder filter at the top of `performSort`: with an empty
source folder keep root files (no slash in the path), otherwise keep files
under `sourceFolder/` or equal to it. -/
def selectSourceFiles (sourceFolder : String) (files : List VaultFile) : List VaultFile :=
  files.filter fun f =>
    if sourceFolder == "" then !(f.path.data.contains '/')
    else f.path.startsWith (sourceFolder ++ "/") || f.path == sourceFolder

/-- Result of one provider call as seen by `classifyNote`: the call either
threw (transport/HTTP error) or returned the extracted text field
(already `null` when the field was absent or the empty string, per
`... || null` in the `call*API` helpers). -/
inductive ApiResult where
  | threw : ApiResult
  | returned : Option String → ApiResult
deriving Repr, DecidableEq

/-- The `|| null` coercion applied to the extracted response field in
`callGeminiAPI` / `callClaudeAPI` / `callGPTAPI`: an absent field or an
empty string both become `null`. -/
def callApiExtract (fieldText : Option String) : Option String :=
  match fieldText with
  | none => none
  | some t => if t == "" then none else some t

/-- The `aiModel` values for which `classifyNote` actually issues a network
call (the `switch` has cases for exactly these three). -/
def modelIsKnown (aiModel : String) : Bool :=
  aiModel == "gemini" || aiModel == "claude" || aiModel == "gpt"

/-- `classifyNote` after the provider call: a thrown error is caught and
becomes `null`; otherwise the result is `response?.trim() || null`, so a
`null` response, or a response trimming to the empty string, yields `null`,
anything else the trimmed string.  An unknown `aiModel` leaves `response`
as `null`. -/
def classifyNote (aiModel : String) (api : ApiResult) : Option String :=
  if modelIsKnown aiModel then
    match api with
    | ApiResult.threw => none
    | ApiResult.returned none => none
    | ApiResult.returned (some r) => if jsTrim r == "" then none else some (jsTrim r)
  else none

/-- Observable actions of a run, in program order. -/
inductive Event where
  | readDoc : String → Event
  | classifyCall : String → Event
  | moveDoc : String → String → Event
  | delay : Nat → Event
deriving Repr, DecidableEq

/-- Predicate picking out pacing-delay events. -/
def Event.isDelay : Event → Bool
  | Event.delay _ => true
  | _ => false

/-- Predicate picking out classification network calls. -/
def Event.isClassifyCall : Event → Bool
  | Event.classifyCall _ => true
  | _ => false

/-- Predicate picking out document reads. -/
def Event.isReadDoc : Event → Bool
  | Event.readDoc _ => true
  | _ => false

/-- Predicate picking out successful document moves. -/
def Event.isMoveDoc : Event → Bool
  | Event.moveDoc _ _ => true
  | _ => false

/-- Oracle for the external effects one `classifyAndMoveNote` task can hit:
the vault read (content or a thrown error), the provider call's result if
one is issued, whether the target folder already exists, and the results of
`createFolder` and `rename`. -/
structure DocEnv where
  readResult : Except Unit String
  apiResult : ApiResult
  folderExists : Bool
  createFolderResult : Except Unit Unit
  renameResult : Except Unit Unit

/-- Events emitted up to and including the classification attempt: the read
always happens first; the network call is issued only when `aiModel` is one
of the three known providers (otherwise the `switch` falls through and
`response` stays `null`). -/
def classifyAttemptEvents (aiModel : String) (name : String) : List Event :=
  if modelIsKnown aiModel then [Event.readDoc name, Event.classifyCall name]
  else [Event.readDoc name]

/-- One `classifyAndMoveNote(file)` task: read the note (a thrown read is
caught, returning `false`); return `false` for blank content before any
classification; classify; move only when the chosen folder is a member of
`settings.targetFolders` (exact string membership via `includes`), creating
the folder first when missing; any thrown error is caught and becomes
`false`.  Returns the fulfilled value (`true` = moved) and the event trace. -/
def classifyAndMoveNote (s : Settings) (name : String) (env : DocEnv) :
    Bool × List Event :=
  match env.readResult with
  | Except.error _ => (false, [Event.readDoc name])
  | Except.ok content =>
    if jsTrim content == "" then (false, [Event.readDoc name])
    else
      match classifyNote s.aiModel env.apiResult with
      | none => (false, classifyAttemptEvents s.aiModel name)
      | some folder =>
        if folder != "" && s.targetFolders.contains folder then
          match (if env.folderExists then Except.ok () else env.createFolderResult) with
          | Except.error _ => (false, classifyAttemptEvents s.aiModel name)
          | Except.ok _ =>
            match env.renameResult with
            | Except.error _ => (false, classifyAttemptEvents s.aiModel name)
            | Except.ok _ =>
              (true, classifyAttemptEvents s.aiModel name ++
                [Event.moveDoc name (folder ++ "/" ++ name)])
        else (false, classifyAttemptEvents s.aiModel name)

/-- Fuel-bounded core of the batching loop: one window per step, recursing on
the fuel so the function reduces by iota (any fuel at least the list length
gives the loop's behavior, since each step drops `k ≥ 1` elements). -/
def chunkGo {α : Type} : Nat → Nat → List α → List (List α)
  | _, _, [] => []
  | 0, _, _ :: _ => []
  | Nat.succ fuel, k, a :: t => (a :: t).take k :: chunkGo fuel k ((a :: t).drop k)

/-- The batching loop `for (let i = 0; i < files.length; i += batchSize)`:
consecutive windows of `k` documents in order.  (The source guarantees
`k ≥ 1`: `maxWorkers` comes from a 1–20 slider with default 10; for `k = 0`
the JavaScript loop would not terminate, so the model returns `[]` and all
theorems assume `1 ≤ k`.) -/
def chunkList {α : Type} (k : Nat) (l : List α) : List (List α) :=
  if k == 0 then [] else chunkGo l.length k l

/-- The per-window fan-out `batch.map(file => this.classifyAndMoveNote(file))`
awaited with `Promise.allSettled`: one task result per document, in order. -/
def windowResults (s : Settings) (env : VaultFile → DocEnv) (batch : List VaultFile) :
    List (Bool × List Event) :=
  batch.map fun f => classifyAndMoveNote s f.name (env f)

/-- Fulfilled values of a window's tasks, in document order. -/
def windowOutcomes (s : Settings) (env : VaultFile → DocEnv) (batch : List VaultFile) :
    List Bool :=
  (windowResults s env batch).map Prod.fst

/-- Events of a window's tasks (one fixed serialization of the concurrent
window; the claims proved below only count events, which is
order-independent). -/
def windowEvents (s : Settings) (env : VaultFile → DocEnv) (batch : List VaultFile) :
    List Event :=
  ((windowResults s env batch).map Prod.snd).flatten

/-- The `results.forEach` tally of `performSort`: a fulfilled `true`
increments `totalMoved`, anything else increments `totalErrors`.  (Tasks
never reject — `classifyAndMoveNote` catches everything — so the fulfilled
value alone decides the bucket.) -/
structure RunSummary where
  moved : Nat
  errors : Nat
deriving Repr, DecidableEq

/-- Fold of the tally loop over the per-document fulfilled values. -/
def tallySummary (results : List Bool) : RunSummary :=
  results.foldl
    (fun acc r =>
      if r then { acc with moved := acc.moved + 1 }
      else { acc with errors := acc.errors + 1 })
    { moved := 0, errors := 0 }

/-- The `for (const batch of batches)` loop: run each window, tally its
results, and sleep 1000 ms after every window except the last
(`batches.indexOf(batch) < batches.length - 1`; the slices are distinct
objects, so `indexOf` is the window's position). -/
def runBatches (s : Settings) (env : VaultFile → DocEnv) :
    List (List VaultFile) → List Bool × List Event
  | [] => ([], [])
  | [b] => (windowOutcomes s env b, windowEvents s env b)
  | b :: b2 :: rest =>
    let tail := runBatches s env (b2 :: rest)
    (windowOutcomes s env b ++ tail.1,
      windowEvents s env b ++ Event.delay 1000 :: tail.2)

/-- Terminal result of a run. -/
inductive RunResult where
  | authError : RunResult
  | noFiles : RunResult
  | completed : RunSummary → RunResult
deriving Repr, DecidableEq

/-- `performSort`: select source files; with none, report and stop; otherwise
window them by `maxWorkers`, run all windows, and report the final
moved/errors tally. -/
def performSort (s : Settings) (allFiles : List VaultFile) (env : VaultFile → DocEnv) :
    RunResult × List Event :=
  let files := selectSourceFiles s.sourceFolder allFiles
  if files.isEmpty then (RunResult.noFiles, [])
  else
    let batches := chunkList s.maxWorkers files
    let res := runBatches s env batches
    (RunResult.completed (tallySummary res.1), res.2)

/-- `sortNotes` followed by the confirmed `performSort`: a falsy (empty)
API key for the selected model stops the run before anything else; otherwise
auto-detection (when enabled) replaces `targetFolders` and the sort runs. -/
def sortNotesRun (s : Settings) (entries : List VaultEntry) (allFiles : List VaultFile)
    (env : VaultFile → DocEnv) : RunResult × List Event :=
  if getCurrentApiKey s == "" then (RunResult.authError, [])
  else
    let s1 :=
      if s.useAutoDetection then { s with targetFolders := autoDetectTargetFolders entries }
      else s
    performSort s1 allFiles env

/-- Shape of a run's event trace: window event blocks joined by single
1000 ms delay markers (no trailing delay). -/
def intercalateDelay : List (List Event) → List Event
  | [] => []
  | [evs] => evs
  | evs :: b :: rest => evs ++ Event.delay 1000 :: intercalateDelay (b :: rest)

/-! ## Basic lemmas about the batching loop -/

theorem chunkGo_eq_of_le {α : Type} (k : Nat) (hk : k ≠ 0) :
    ∀ (fuel : Nat) (l : List α), l.length ≤ fuel →
      chunkGo fuel k l = chunkGo l.length k l := by
  intro fuel
  induction fuel using Nat.strong_induction_on with
  | _ fuel ih =>
    intro l hl
    cases l with
    | nil => cases fuel <;> rfl
    | cons a t =>
      cases fuel with
      | zero => simp at hl
      | succ fuel =>
        simp only [List.length_cons] at hl
        have htf : t.length ≤ fuel := by omega
        have hd : ((a :: t).drop k).length ≤ t.length := by
          simp only [List.length_drop, List.length_cons]
          omega
        simp only [chunkGo, List.length_cons]
        rw [ih fuel (by omega) ((a :: t).drop k) (Nat.le_trans hd htf),
          ih t.length (by omega) ((a :: t).drop k) hd]

theorem chunkList_nil {α : Type} (k : Nat) : chunkList k ([] : List α) = [] := by
  unfold chunkList
  split <;> rfl

theorem chunkList_cons {α : Type} (k : Nat) (hk : k ≠ 0) (a : α) (t : List α) :
    chunkList k (a :: t) = (a :: t).take k :: chunkList k ((a :: t).drop k) := by
  unfold chunkList
  rw [if_neg (by simpa using hk), if_neg (by simpa using hk)]
  simp only [List.length_cons, chunkGo]
  have hd : ((a :: t).drop k).length ≤ t.length := by
    simp only [List.length_drop, List.length_cons]
    omega
  rw [chunkGo_eq_of_le k hk t.length ((a :: t).drop k) hd]

theorem chunkList_flatten_aux {α : Type} (k : Nat) (hk : 1 ≤ k) :
    ∀ (n : Nat) (l : List α), l.length ≤ n → (chunkList k l).flatten = l := by
  intro n
  induction n with
  | zero =>
    intro l hl
    have hl0 : l = [] := List.length_eq_zero.mp (Nat.le_zero.mp hl)
    subst hl0
    rw [chunkList_nil]
    rfl
  | succ n ih =>
    intro l hl
    match l with
    | [] => rw [chunkList_nil]; rfl
    | a :: t =>
      rw [chunkList_cons k (by omega) a t]
      have hdrop : ((a :: t).drop k).length ≤ n := by
        simp only [List.length_drop, List.length_cons]
        simp only [List.length_cons] at hl
        omega
      simp only [List.flatten_cons, ih ((a :: t).drop k) hdrop]
      exact List.take_append_drop k (a :: t)

theorem chunkList_flatten {α : Type} (k : Nat) (hk : 1 ≤ k) (l : List α) :
    (chunkList k l).flatten = l :=
  chunkList_flatten_aux k hk l.length l (Nat.le_refl _)

theorem chunkList_length_aux {α : Type} (k : Nat) (hk : 1 ≤ k) :
    ∀ (n : Nat) (l : List α), l.length ≤ n →
      (chunkList k l).length = (l.length + k - 1) / k := by
  intro n
  induction n with
  | zero =>
    intro l hl
    have hl0 : l = [] := List.length_eq_zero.mp (Nat.le_zero.mp hl)
    subst hl0
    rw [chunkList_nil]
    simp [Nat.div_eq_of_lt (by omega : k - 1 < k)]
  | succ n ih =>
    intro l hl
    match l with
    | [] =>
      rw [chunkList_nil]
      simp [Nat.div_eq_of_lt (by omega : k - 1 < k)]
    | a :: t =>
      rw [chunkList_cons k (by omega) a t]
      have hdrop : ((a :: t).drop k).length ≤ n := by
        simp only [List.length_drop, List.length_cons]
        simp only [List.length_cons] at hl
        omega
      have hrec := ih ((a :: t).drop k) hdrop
      simp only [List.length_cons, List.length_drop] at hrec ⊢
      rw [hrec]
      have hnum : t.length + 1 + k - 1 = (t.length + 1 - 1) + k := by omega
      rw [hnum, Nat.add_div_right _ (by omega : 0 < k)]
      rcases Nat.lt_or_ge k (t.length + 1) with hlt | hge
      · have : t.length + 1 - k + k - 1 = t.length + 1 - 1 := by omega
        rw [this]
      · have h1 : t.length + 1 - k = 0 := by omega
        rw [h1]
        rw [Nat.div_eq_of_lt (by omega : 0 + k - 1 < k),
          Nat.div_eq_of_lt (by omega : t.length + 1 - 1 < k)]

theorem chunkList_length {α : Type} (k : Nat) (hk : 1 ≤ k) (l : List α) :
    (chunkList k l).length = (l.length + k - 1) / k :=
  chunkList_length_aux k hk l.length l (Nat.le_refl _)

theorem chunkList_mem_length_aux {α : Type} (k : Nat) (hk : 1 ≤ k) :
    ∀ (n : Nat) (l : List α), l.length ≤ n →
      ∀ b ∈ chunkList k l, b.length ≤ k := by
  intro n
  induction n with
  | zero =>
    intro l hl b hb
    have hl0 : l = [] := List.length_eq_zero.mp (Nat.le_zero.mp hl)
    subst hl0
    rw [chunkList_nil] at hb
    exact absurd hb (List.not_mem_nil b)
  | succ n ih =>
    intro l hl b hb
    match l with
    | [] =>
      rw [chunkList_nil] at hb
      exact absurd hb (List.not_mem_nil b)
    | a :: t =>
      rw [chunkList_cons k (by omega) a t] at hb
      rcases List.mem_cons.mp hb with hhead | htail
      · subst hhead
        simp [List.length_take]
      · have hdrop : ((a :: t).drop k).length ≤ n := by
          simp only [List.length_drop, List.length_cons]
          simp only [List.length_cons] at hl
          omega
        exact ih ((a :: t).drop k) hdrop b htail

theorem chunkList_mem_length {α : Type} (k : Nat) (hk : 1 ≤ k) (l : List α) :
    ∀ b ∈ chunkList k l, b.length ≤ k :=
  chunkList_mem_length_aux k hk l.length l (Nat.le_refl _)

/-! ## The tally fold -/

theorem tallySummary_go (results : List Bool) :
    ∀ acc : RunSummary,
      results.foldl
        (fun acc r =>
          if r then { acc with moved := acc.moved + 1 }
          else { acc with errors := acc.errors + 1 }) acc =
      { moved := acc.moved + results.countP (fun b => b)
        errors := acc.errors + results.countP (fun b => !b) } := by
  induction results with
  | nil => intro acc; simp [List.countP_nil]
  | cons r t ih =>
    intro acc
    cases r with
    | true =>
      simp only [List.foldl_cons, if_pos rfl, ih]
      simp [List.countP_cons]
      omega
    | false =>
      simp only [List.foldl_cons, ih]
      simp [List.countP_cons]
      omega

theorem tallySummary_eq (results : List Bool) :
    tallySummary results =
      { moved := results.countP (fun b => b), errors := results.countP (fun b => !b) } := by
  unfold tallySummary
  rw [tallySummary_go]
  simp

theorem countP_add_countP_not {α : Type} (p : α → Bool) (l : List α) :
    l.countP p + l.countP (fun a => !(p a)) = l.length := by
  induction l with
  | nil => rfl
  | cons a t ih =>
    cases hp : p a <;> simp [List.countP_cons, hp] <;> omega

/-! ## Per-task lemmas -/

theorem classifyAttemptEvents_countP_delay (aiModel name : String) :
    (classifyAttemptEvents aiModel name).countP Event.isDelay = 0 := by
  unfold classifyAttemptEvents
  split <;> rfl

theorem classifyAttemptEvents_countP_classify (aiModel name : String) :
    (classifyAttemptEvents aiModel name).countP Event.isClassifyCall ≤ 1 := by
  unfold classifyAttemptEvents
  split <;> simp [List.countP_cons, List.countP_nil, Event.isClassifyCall]

theorem classifyAttemptEvents_countP_read (aiModel name : String) :
    (classifyAttemptEvents aiModel name).countP Event.isReadDoc = 1 := by
  unfold classifyAttemptEvents
  split <;> rfl

theorem classifyAttemptEvents_countP_move (aiModel name : String) :
    (classifyAttemptEvents aiModel name).countP Event.isMoveDoc = 0 := by
  unfold classifyAttemptEvents
  split <;> rfl

theorem classifyAndMoveNote_countP_delay (s : Settings) (name : String) (env : DocEnv) :
    (classifyAndMoveNote s name env).2.countP Event.isDelay = 0 := by
  unfold classifyAndMoveNote
  repeat' split
  all_goals
    simp [List.countP_append, List.countP_cons, List.countP_nil, Event.isDelay,
      classifyAttemptEvents_countP_delay]

theorem classifyAndMoveNote_countP_classify (s : Settings) (name : String) (env : DocEnv) :
    (classifyAndMoveNote s name env).2.countP Event.isClassifyCall ≤ 1 := by
  unfold classifyAndMoveNote
  repeat' split
  all_goals
    simp [List.countP_append, List.countP_cons, List.countP_nil, Event.isClassifyCall,
      classifyAttemptEvents_countP_classify]

theorem classifyAndMoveNote_countP_read (s : Settings) (name : String) (env : DocEnv) :
    (classifyAndMoveNote s name env).2.countP Event.isReadDoc = 1 := by
  unfold classifyAndMoveNote
  repeat' split
  all_goals
    simp [List.countP_append, List.countP_cons, List.countP_nil, Event.isReadDoc,
      classifyAttemptEvents_countP_read]

theorem classifyAndMoveNote_empty_labels (s : Settings) (name : String) (env : DocEnv)
    (hlabels : s.targetFolders = []) :
    (classifyAndMoveNote s name env).1 = false := by
  unfold classifyAndMoveNote
  repeat' split
  all_goals simp_all [List.contains]

/-! ## Window lemmas -/

theorem windowEvents_nil (s : Settings) (env : VaultFile → DocEnv) :
    windowEvents s env [] = [] := rfl

theorem windowEvents_cons (s : Settings) (env : VaultFile → DocEnv)
    (f : VaultFile) (rest : List VaultFile) :
    windowEvents s env (f :: rest) =
      (classifyAndMoveNote s f.name (env f)).2 ++ windowEvents s env rest := by
  simp [windowEvents, windowResults]

theorem windowOutcomes_eq (s : Settings) (env : VaultFile → DocEnv) (batch : List VaultFile) :
    windowOutcomes s env batch =
      batch.map fun f => (classifyAndMoveNote s f.name (env f)).1 := by
  simp [windowOutcomes, windowResults, List.map_map]

theorem windowEvents_countP_delay (s : Settings) (env : VaultFile → DocEnv)
    (batch : List VaultFile) :
    (windowEvents s env batch).countP Event.isDelay = 0 := by
  induction batch with
  | nil => rfl
  | cons f rest ih =>
    rw [windowEvents_cons, List.countP_append, ih, classifyAndMoveNote_countP_delay]

theorem windowEvents_countP_classify (s : Settings) (env : VaultFile → DocEnv)
    (batch : List VaultFile) :
    (windowEvents s env batch).countP Event.isClassifyCall ≤ batch.length := by
  induction batch with
  | nil => exact Nat.le_refl 0
  | cons f rest ih =>
    rw [windowEvents_cons, List.countP_append, List.length_cons]
    have h1 := classifyAndMoveNote_countP_classify s f.name (env f)
    omega

theorem windowEvents_countP_read (s : Settings) (env : VaultFile → DocEnv)
    (batch : List VaultFile) :
    (windowEvents s env batch).countP Event.isReadDoc = batch.length := by
  induction batch with
  | nil => rfl
  | cons f rest ih =>
    rw [windowEvents_cons, List.countP_append, List.length_cons, ih,
      classifyAndMoveNote_countP_read]
    omega

/-! ## Run-level structure lemmas -/

theorem runBatches_fst (s : Settings) (env : VaultFile → DocEnv) :
    ∀ bs : List (List VaultFile),
      (runBatches s env bs).1 =
        bs.flatten.map fun f => (classifyAndMoveNote s f.name (env f)).1 := by
  intro bs
  induction bs with
  | nil => rfl
  | cons b rest ih =>
    cases rest with
    | nil => simp [runBatches, windowOutcomes_eq]
    | cons b2 rest2 =>
      simp only [runBatches, List.flatten_cons, List.map_append, windowOutcomes_eq]
      rw [ih]
      simp [List.flatten_cons, List.map_append]

theorem runBatches_snd (s : Settings) (env : VaultFile → DocEnv) :
    ∀ bs : List (List VaultFile),
      (runBatches s env bs).2 = intercalateDelay (bs.map (windowEvents s env)) := by
  intro bs
  induction bs with
  | nil => rfl
  | cons b rest ih =>
    cases rest with
    | nil => rfl
    | cons b2 rest2 =>
      simp only [runBatches, List.map_cons, intercalateDelay]
      rw [ih]
      simp [List.map_cons]

theorem intercalateDelay_countP (p : Event → Bool) (hp : p (Event.delay 1000) = false) :
    ∀ ws : List (List Event),
      (intercalateDelay ws).countP p = (ws.map fun b => b.countP p).sum := by
  intro ws
  induction ws with
  | nil => rfl
  | cons b rest ih =>
    cases rest with
    | nil => simp [intercalateDelay]
    | cons b2 rest2 =>
      simp only [intercalateDelay, List.map_cons, List.sum_cons] at ih ⊢
      rw [List.countP_append, List.countP_cons, hp, ih]
      simp

theorem intercalateDelay_countP_isDelay :
    ∀ ws : List (List Event),
      (∀ b ∈ ws, b.countP Event.isDelay = 0) →
      (intercalateDelay ws).countP Event.isDelay = ws.length - 1 := by
  intro ws
  induction ws with
  | nil => intro _; rfl
  | cons b rest ih =>
    intro h
    cases rest with
    | nil =>
      simp only [intercalateDelay]
      rw [h b (List.mem_cons_self b [])]
      rfl
    | cons b2 rest2 =>
      simp only [intercalateDelay]
      rw [List.countP_append, h b (List.mem_cons_self b _), List.countP_cons]
      have hrest : ∀ x ∈ b2 :: rest2, x.countP Event.isDelay = 0 := by
        intro x hx
        exact h x (List.mem_cons_of_mem b hx)
      rw [ih hrest]
      simp [Event.isDelay, List.length_cons]

theorem performSort_of_ne_nil (s : Settings) (allFiles : List VaultFile)
    (env : VaultFile → DocEnv)
    (hne : selectSourceFiles s.sourceFolder allFiles ≠ []) :
    performSort s allFiles env =
      (RunResult.completed (tallySummary
          (runBatches s env
            (chunkList s.maxWorkers (selectSourceFiles s.sourceFolder allFiles))).1),
        (runBatches s env
          (chunkList s.maxWorkers (selectSourceFiles s.sourceFolder allFiles))).2) := by
  unfold performSort
  simp [List.isEmpty_iff, hne]

theorem performSort_summary (s : Settings) (allFiles : List VaultFile)
    (env : VaultFile → DocEnv)
    (hk : 1 ≤ s.maxWorkers)
    (hne : selectSourceFiles s.sourceFolder allFiles ≠ []) :
    (performSort s allFiles env).1 = RunResult.completed
      { moved := (selectSourceFiles s.sourceFolder allFiles).countP
          (fun f => (classifyAndMoveNote s f.name (env f)).1)
        errors := (selectSourceFiles s.sourceFolder allFiles).countP
          (fun f => !(classifyAndMoveNote s f.name (env f)).1) } := by
  rw [performSort_of_ne_nil s allFiles env hne]
  rw [runBatches_fst, chunkList_flatten s.maxWorkers hk, tallySummary_eq]
  simp only [List.countP_map]
  exact rfl

theorem run_events_countP (s : Settings) (allFiles : List VaultFile)
    (env : VaultFile → DocEnv) (p : Event → Bool)
    (hp : p (Event.delay 1000) = false)
    (hne : selectSourceFiles s.sourceFolder allFiles ≠ []) :
    (performSort s allFiles env).2.countP p =
      ((chunkList s.maxWorkers (selectSourceFiles s.sourceFolder allFiles)).map
        (fun b => (windowEvents s env b).countP p)).sum := by
  rw [performSort_of_ne_nil s allFiles env hne]
  rw [runBatches_snd, intercalateDelay_countP p hp, List.map_map]
  rfl

theorem run_events_countP_read (s : Settings) (allFiles : List VaultFile)
    (env : VaultFile → DocEnv)
    (hk : 1 ≤ s.maxWorkers)
    (hne : selectSourceFiles s.sourceFolder allFiles ≠ []) :
    (performSort s allFiles env).2.countP Event.isReadDoc =
      (selectSourceFiles s.sourceFolder allFiles).length := by
  rw [run_events_countP s allFiles env Event.isReadDoc rfl hne]
  have hmap :
      (chunkList s.maxWorkers (selectSourceFiles s.sourceFolder allFiles)).map
        (fun b => (windowEvents s env b).countP Event.isReadDoc) =
      (chunkList s.maxWorkers (selectSourceFiles s.sourceFolder allFiles)).map
        List.length := by
    apply List.map_congr_left
    intro b _
    exact windowEvents_countP_read s env b
  rw [hmap, ← List.length_flatten, chunkList_flatten s.maxWorkers hk]

theorem classifyNote_some (aiModel : String) (api : ApiResult) (folder : String)
    (h : classifyNote aiModel api = some folder) :
    ∃ r, api = ApiResult.returned (some r) ∧ folder = jsTrim r := by
  unfold classifyNote at h
  by_cases hm : modelIsKnown aiModel
  · rw [if_pos hm] at h
    cases api with
    | threw => exact absurd h (by simp)
    | returned o =>
      cases o with
      | none => exact absurd h (by simp)
      | some r =>
        refine ⟨r, rfl, ?_⟩
        dsimp only at h
        by_cases hb : jsTrim r == ""
        · rw [if_pos hb] at h
          exact absurd h (by simp)
        · rw [if_neg hb] at h
          exact (Option.some_injective _ h).symm
  · rw [if_neg hm] at h
    exact absurd h (by simp)

theorem classifyAndMoveNote_not_moved (s : Settings) (name : String) (env : DocEnv)
    (h : ∀ folder, classifyNote s.aiModel env.apiResult = some folder →
      s.targetFolders.contains folder = false) :
    (classifyAndMoveNote s name env).1 = false ∧
    (classifyAndMoveNote s name env).2.countP Event.isMoveDoc = 0 := by
  unfold classifyAndMoveNote
  cases hr : env.readResult with
  | error e => exact ⟨rfl, rfl⟩
  | ok content =>
    dsimp only
    by_cases hc : jsTrim content == ""
    · rw [if_pos hc]
      exact ⟨rfl, rfl⟩
    · rw [if_neg hc]
      cases hcl : classifyNote s.aiModel env.apiResult with
      | none => exact ⟨rfl, classifyAttemptEvents_countP_move s.aiModel name⟩
      | some folder =>
        dsimp only
        have hguard : (folder != "" && s.targetFolders.contains folder) = false := by
          rw [h folder hcl]
          simp
        rw [hguard, if_neg (by simp : ¬ (false = true))]
        exact ⟨rfl, classifyAttemptEvents_countP_move s.aiModel name⟩

theorem classifyAndMoveNote_no_label (s : Settings) (name : String) (env : DocEnv)
    (hnone : classifyNote s.aiModel env.apiResult = none) :
    (classifyAndMoveNote s name env).1 = false ∧
    (classifyAndMoveNote s name env).2.countP Event.isMoveDoc = 0 := by
  apply classifyAndMoveNote_not_moved
  intro folder hfolder
  rw [hnone] at hfolder
  exact absurd hfolder (by simp)

/-! ## Concrete fixtures for counterexamples and witnesses -/

/-- A root-level note. -/
def fileA : VaultFile := { path := "a.md", name := "a.md" }

/-- A second root-level note. -/
def fileB : VaultFile := { path := "b.md", name := "b.md" }

/-- A third root-level note. -/
def fileC : VaultFile := { path := "c.md", name := "c.md" }

/-- Environment where everything succeeds and the model answers "Work". -/
def envWork : DocEnv :=
  { readResult := Except.ok "course notes about sorting algorithms"
    apiResult := ApiResult.returned (some "Work")
    folderExists := true
    createFolderResult := Except.ok ()
    renameResult := Except.ok () }

/-- Environment whose note content is empty. -/
def envBlank : DocEnv :=
  { envWork with readResult := Except.ok "" }

/-- Environment whose note content is whitespace-only. -/
def envWsOnly : DocEnv :=
  { envWork with readResult := Except.ok "  \n\t " }

/-- Environment where the model answers a case variant of a target folder. -/
def envCaseVariant : DocEnv :=
  { envWork with apiResult := ApiResult.returned (some " work ") }

/-- Environment whose provider response field is whitespace-only. -/
def envWsResponse : DocEnv :=
  { envWork with apiResult := ApiResult.returned (callApiExtract (some "   ")) }

/-- Settings with a key set and auto-detection on (C1 scenario). -/
def sEmptyDetect : Settings :=
  { DEFAULT_SETTINGS with
      geminiApiKey := "k" }

/-- Settings with a key set, auto-detection off, one target folder "Work". -/
def sWorkOnly : Settings :=
  { DEFAULT_SETTINGS with
      geminiApiKey := "k"
      useAutoDetection := false
      targetFolders := ["Work"] }

/-- Like `sWorkOnly` but with an explicitly empty target-folder list. -/
def sNoLabels : Settings :=
  { sWorkOnly with targetFolders := [] }

/-- Like `sWorkOnly` but with concurrency 2 (windows of two documents). -/
def sWorkers2 : Settings :=
  { sWorkOnly with maxWorkers := 2 }

/-! ## Claims -/

/-- C1, counterexample.  The claim says that with an empty CandidateLabelSet
(here: auto-detection over a vault with no top-level folders) the run aborts
immediately with zero work done, no document read and no classification call
issued.  On the code it is false: with one root note, the run reads the note,
issues a classification call, and reports one error. -/
theorem emptyLabels_run_not_aborted_cex :
    autoDetectTargetFolders ([] : List VaultEntry) = [] ∧
    ¬ ((sortNotesRun sEmptyDetect [] [fileA] (fun _ => envWork)).2.countP
        Event.isReadDoc = 0) ∧
    ¬ ((sortNotesRun sEmptyDetect [] [fileA] (fun _ => envWork)).2.countP
        Event.isClassifyCall = 0) ∧
    (sortNotesRun sEmptyDetect [] [fileA] (fun _ => envWork)).1 =
      RunResult.completed { moved := 0, errors := 1 } :=
  ⟨rfl, by decide, by decide, rfl⟩

/-- C1, amended.  When the target-folder list is empty at run start, the run
does not abort: every selected document is still read (one read event per
document), no label can validate, so nothing is moved and every document is
counted in the errors counter. -/
theorem performSort_empty_labels_processes_all
    (s : Settings) (allFiles : List VaultFile) (env : VaultFile → DocEnv)
    (hlabels : s.targetFolders = [])
    (hk : 1 ≤ s.maxWorkers)
    (hne : selectSourceFiles s.sourceFolder allFiles ≠ []) :
    (performSort s allFiles env).1 = RunResult.completed
      { moved := 0, errors := (selectSourceFiles s.sourceFolder allFiles).length } ∧
    (performSort s allFiles env).2.countP Event.isReadDoc =
      (selectSourceFiles s.sourceFolder allFiles).length := by
  have hall : ∀ f ∈ selectSourceFiles s.sourceFolder allFiles,
      (classifyAndMoveNote s f.name (env f)).1 = false := by
    intro f _
    exact classifyAndMoveNote_empty_labels s f.name (env f) hlabels
  constructor
  · rw [performSort_summary s allFiles env hk hne]
    have h1 : (selectSourceFiles s.sourceFolder allFiles).countP
        (fun f => (classifyAndMoveNote s f.name (env f)).1) = 0 := by
      apply List.countP_eq_zero.mpr
      intro f hf
      simp [hall f hf]
    have h2 : (selectSourceFiles s.sourceFolder allFiles).countP
        (fun f => !(classifyAndMoveNote s f.name (env f)).1) =
        (selectSourceFiles s.sourceFolder allFiles).length := by
      apply List.countP_eq_length.mpr
      intro f hf
      simp [hall f hf]
    rw [h1, h2]
  · exact run_events_countP_read s allFiles env hk hne

/-- C1, amended, witness at a concrete input. -/
theorem performSort_empty_labels_processes_all_witness :
    sNoLabels.targetFolders = [] ∧ 1 ≤ sNoLabels.maxWorkers ∧
    selectSourceFiles sNoLabels.sourceFolder [fileA] ≠ [] ∧
    ((performSort sNoLabels [fileA] (fun _ => envWork)).1 = RunResult.completed
      { moved := 0, errors := (selectSourceFiles sNoLabels.sourceFolder [fileA]).length } ∧
     (performSort sNoLabels [fileA] (fun _ => envWork)).2.countP Event.isReadDoc =
      (selectSourceFiles sNoLabels.sourceFolder [fileA]).length) :=
  ⟨rfl, by decide, by decide,
    performSort_empty_labels_processes_all sNoLabels [fileA] (fun _ => envWork)
      rfl (by decide) (by decide)⟩

/-- C2, counterexample.  The claim says a document whose task completes
without a move (here: empty content, a skip) is counted in neither the moved
nor the errors counter.  On the code it is false: the tally's else-branch
counts every fulfilled `false` in `totalErrors`, so a one-document run whose
single document skips reports `{moved 0, errors 1}`, not `{moved 0, errors 0}`. -/
theorem skip_in_errors_bucket_cex :
    (classifyAndMoveNote sWorkOnly "a.md" envBlank).1 = false ∧
    (classifyAndMoveNote sWorkOnly "a.md" envBlank).2.countP Event.isMoveDoc = 0 ∧
    (performSort sWorkOnly [fileA] (fun _ => envBlank)).1 =
      RunResult.completed { moved := 0, errors := 1 } ∧
    ¬ ((performSort sWorkOnly [fileA] (fun _ => envBlank)).1 =
      RunResult.completed { moved := 0, errors := 0 }) :=
  ⟨rfl, rfl, rfl, by decide⟩

/-- C2, amended.  A document whose task completes without a move is counted
in the errors counter (and not in the moved counter): the final summary's
moved count is exactly the number of selected documents whose task returned
`true`, and its errors count is exactly the number whose task returned
`false` — skips included. -/
theorem performSort_unmoved_counted_as_errors
    (s : Settings) (allFiles : List VaultFile) (env : VaultFile → DocEnv)
    (hk : 1 ≤ s.maxWorkers)
    (hne : selectSourceFiles s.sourceFolder allFiles ≠ []) :
    (performSort s allFiles env).1 = RunResult.completed
      { moved := (selectSourceFiles s.sourceFolder allFiles).countP
          (fun f => (classifyAndMoveNote s f.name (env f)).1)
        errors := (selectSourceFiles s.sourceFolder allFiles).countP
          (fun f => !(classifyAndMoveNote s f.name (env f)).1) } :=
  performSort_summary s allFiles env hk hne

/-- C2, amended, witness at a concrete input: one skipping document lands in
the errors counter. -/
theorem performSort_unmoved_counted_as_errors_witness :
    1 ≤ sWorkOnly.maxWorkers ∧
    selectSourceFiles sWorkOnly.sourceFolder [fileA] ≠ [] ∧
    (performSort sWorkOnly [fileA] (fun _ => envBlank)).1 = RunResult.completed
      { moved := (selectSourceFiles sWorkOnly.sourceFolder [fileA]).countP
          (fun f => (classifyAndMoveNote sWorkOnly f.name envBlank).1)
        errors := (selectSourceFiles sWorkOnly.sourceFolder [fileA]).countP
          (fun f => !(classifyAndMoveNote sWorkOnly f.name envBlank).1) } :=
  ⟨by decide, by decide,
    performSort_unmoved_counted_as_errors sWorkOnly [fileA] (fun _ => envBlank)
      (by decide) (by decide)⟩

/-- C3.  For every document list and concurrency bound `k ≥ 1`, the batching
loop produces exactly `⌈n/k⌉` consecutive windows, each of size at most `k`,
whose concatenation is the original list (order preserved within and across
windows), and a window of size at most `k` issues at most `k` classification
calls. -/
theorem scheduler_windowing
    (k : Nat) (docs : List VaultFile) (s : Settings) (env : VaultFile → DocEnv)
    (hk : 1 ≤ k) :
    (chunkList k docs).length = (docs.length + k - 1) / k ∧
    (∀ b ∈ chunkList k docs, b.length ≤ k) ∧
    (chunkList k docs).flatten = docs ∧
    (∀ b ∈ chunkList k docs,
      (windowEvents s env b).countP Event.isClassifyCall ≤ k) := by
  refine ⟨chunkList_length k hk docs, chunkList_mem_length k hk docs,
    chunkList_flatten k hk docs, ?_⟩
  intro b hb
  exact Nat.le_trans (windowEvents_countP_classify s env b)
    (chunkList_mem_length k hk docs b hb)

/-- C3, witness at a concrete input: three documents, concurrency 2, give
`⌈3/2⌉ = 2` windows. -/
theorem scheduler_windowing_witness :
    1 ≤ 2 ∧
    (chunkList 2 [fileA, fileB, fileC]).length = ([fileA, fileB, fileC].length + 2 - 1) / 2 :=
  ⟨by decide,
    (scheduler_windowing 2 [fileA, fileB, fileC] sWorkers2 (fun _ => envWork)
      (by decide)).1⟩

/-- C4.  A document whose content is empty or whitespace-only terminates as a
skip: the task returns `false` with exactly one read event — no
classification network call and no move. -/
theorem blank_content_skipped_no_call
    (s : Settings) (name : String) (env : DocEnv) (content : String)
    (hread : env.readResult = Except.ok content)
    (hblank : jsTrim content = "") :
    classifyAndMoveNote s name env = (false, [Event.readDoc name]) := by
  unfold classifyAndMoveNote
  rw [hread]
  dsimp only
  rw [if_pos (beq_iff_eq.mpr hblank)]

/-- C4, witness at a concrete input: whitespace-only content. -/
theorem blank_content_skipped_no_call_witness :
    envWsOnly.readResult = Except.ok "  \n\t " ∧
    jsTrim "  \n\t " = "" ∧
    classifyAndMoveNote sWorkOnly "a.md" envWsOnly = (false, [Event.readDoc "a.md"]) :=
  ⟨rfl, by decide,
    blank_content_skipped_no_call sWorkOnly "a.md" envWsOnly "  \n\t " rfl (by decide)⟩

/-- C5.  When the trimmed classifier output is not an exact (case-sensitive)
member of the target-folder list, the document is never moved: the task
returns `false` and emits no move event.  Membership is `List.contains`,
i.e. exact string equality — no partial or fuzzy matching. -/
theorem nonmember_label_never_moved
    (s : Settings) (name : String) (env : DocEnv) (raw : String)
    (hapi : env.apiResult = ApiResult.returned (some raw))
    (hmem : s.targetFolders.contains (jsTrim raw) = false) :
    (classifyAndMoveNote s name env).1 = false ∧
    (classifyAndMoveNote s name env).2.countP Event.isMoveDoc = 0 := by
  apply classifyAndMoveNote_not_moved
  intro folder hfolder
  obtain ⟨r, henv, hfr⟩ := classifyNote_some s.aiModel env.apiResult folder hfolder
  rw [hapi] at henv
  have hr : raw = r := by
    injection henv with h1
    injection h1
  subst hr
  rw [hfr]
  exact hmem

/-- C5, witness at a concrete input: the raw output " work " trims to
"work", a case variant of the member "Work", and the document stays put. -/
theorem nonmember_label_never_moved_witness :
    envCaseVariant.apiResult = ApiResult.returned (some " work ") ∧
    sWorkOnly.targetFolders.contains (jsTrim " work ") = false ∧
    ((classifyAndMoveNote sWorkOnly "a.md" envCaseVariant).1 = false ∧
     (classifyAndMoveNote sWorkOnly "a.md" envCaseVariant).2.countP Event.isMoveDoc = 0) :=
  ⟨rfl, by decide,
    nonmember_label_never_moved sWorkOnly "a.md" envCaseVariant " work " rfl (by decide)⟩

/-- C6.  When the credential for the selected provider is missing (the
falsy-key check at the top of `sortNotes`), the whole run returns
immediately: the result is the auth failure and the event trace is empty —
no document read and no classification call, whatever the vault contains.
The check is on the run's settings once, before any per-document work. -/
theorem missing_key_run_returns_immediately
    (s : Settings) (entries : List VaultEntry) (allFiles : List VaultFile)
    (env : VaultFile → DocEnv)
    (hkey : getCurrentApiKey s = "") :
    sortNotesRun s entries allFiles env = (RunResult.authError, []) := by
  unfold sortNotesRun
  rw [if_pos (beq_iff_eq.mpr hkey)]

/-- C6, witness at a concrete input: the default settings select Gemini with
an empty key, and the run stops at once even with a note available. -/
theorem missing_key_run_returns_immediately_witness :
    getCurrentApiKey DEFAULT_SETTINGS = "" ∧
    sortNotesRun DEFAULT_SETTINGS [] [fileA] (fun _ => envWork) =
      (RunResult.authError, []) :=
  ⟨rfl, missing_key_run_returns_immediately DEFAULT_SETTINGS [] [fileA]
    (fun _ => envWork) rfl⟩

/-- C7.  Every selected document's task reaches exactly one terminal
fulfilled value (`classifyAndMoveNote` catches every error), the summary
counts `true` outcomes as moved and everything else as errors, and the two
counters sum to exactly the number of selected documents. -/
theorem run_every_doc_one_outcome
    (s : Settings) (allFiles : List VaultFile) (env : VaultFile → DocEnv)
    (hk : 1 ≤ s.maxWorkers)
    (hne : selectSourceFiles s.sourceFolder allFiles ≠ []) :
    (performSort s allFiles env).1 = RunResult.completed
      { moved := (selectSourceFiles s.sourceFolder allFiles).countP
          (fun f => (classifyAndMoveNote s f.name (env f)).1)
        errors := (selectSourceFiles s.sourceFolder allFiles).countP
          (fun f => !(classifyAndMoveNote s f.name (env f)).1) } ∧
    (selectSourceFiles s.sourceFolder allFiles).countP
        (fun f => (classifyAndMoveNote s f.name (env f)).1) +
      (selectSourceFiles s.sourceFolder allFiles).countP
        (fun f => !(classifyAndMoveNote s f.name (env f)).1) =
      (selectSourceFiles s.sourceFolder allFiles).length :=
  ⟨performSort_summary s allFiles env hk hne,
    countP_add_countP_not _ (selectSourceFiles s.sourceFolder allFiles)⟩

/-- C7, witness at a concrete input: three documents, two windows, moved +
errors = 3. -/
theorem run_every_doc_one_outcome_witness :
    1 ≤ sWorkers2.maxWorkers ∧
    selectSourceFiles sWorkers2.sourceFolder [fileA, fileB, fileC] ≠ [] ∧
    (selectSourceFiles sWorkers2.sourceFolder [fileA, fileB, fileC]).countP
        (fun f => (classifyAndMoveNote sWorkers2 f.name envWork).1) +
      (selectSourceFiles sWorkers2.sourceFolder [fileA, fileB, fileC]).countP
        (fun f => !(classifyAndMoveNote sWorkers2 f.name envWork).1) =
      (selectSourceFiles sWorkers2.sourceFolder [fileA, fileB, fileC]).length :=
  ⟨by decide, by decide,
    (run_every_doc_one_outcome sWorkers2 [fileA, fileB, fileC] (fun _ => envWork)
      (by decide) (by decide)).2⟩

/-- C8.  The tally of per-document outcomes into the run summary is a pure
fold whose result is invariant under any permutation of the outcome
sequence. -/
theorem tallySummary_perm_invariant (l₁ l₂ : List Bool) (h : l₁.Perm l₂) :
    tallySummary l₁ = tallySummary l₂ := by
  rw [tallySummary_eq, tallySummary_eq, h.countP_eq, h.countP_eq]

/-- C8, witness at a concrete input. -/
theorem tallySummary_perm_invariant_witness :
    ([true, false, false].Perm [false, false, true]) ∧
    tallySummary [true, false, false] = tallySummary [false, false, true] :=
  ⟨by decide, tallySummary_perm_invariant [true, false, false] [false, false, true]
    (by decide)⟩

/-- C9.  A run's event trace is exactly the windows' event blocks joined by
single 1000 ms pacing delays: no window's own events contain a delay, and
the number of delay events is the number of windows minus one — so there is
a delay after every window except the last, never after the last, and a
single-window run has none. -/
theorem pacing_delay_between_windows
    (s : Settings) (allFiles : List VaultFile) (env : VaultFile → DocEnv)
    (hk : 1 ≤ s.maxWorkers)
    (hne : selectSourceFiles s.sourceFolder allFiles ≠ []) :
    (performSort s allFiles env).2 =
      intercalateDelay
        ((chunkList s.maxWorkers (selectSourceFiles s.sourceFolder allFiles)).map
          (windowEvents s env)) ∧
    (∀ b ∈ chunkList s.maxWorkers (selectSourceFiles s.sourceFolder allFiles),
      (windowEvents s env b).countP Event.isDelay = 0) ∧
    (performSort s allFiles env).2.countP Event.isDelay =
      (chunkList s.maxWorkers (selectSourceFiles s.sourceFolder allFiles)).length - 1 := by
  have hshape : (performSort s allFiles env).2 =
      intercalateDelay
        ((chunkList s.maxWorkers (selectSourceFiles s.sourceFolder allFiles)).map
          (windowEvents s env)) := by
    rw [performSort_of_ne_nil s allFiles env hne, runBatches_snd]
  refine ⟨hshape, fun b _ => windowEvents_countP_delay s env b, ?_⟩
  rw [hshape, intercalateDelay_countP_isDelay]
  · rw [List.length_map]
  · intro b hb
    obtain ⟨w, _, rfl⟩ := List.mem_map.mp hb
    exact windowEvents_countP_delay s env w

/-- C9, witness at a concrete input: three documents with concurrency 2 give
two windows and exactly one pacing delay. -/
theorem pacing_delay_between_windows_witness :
    1 ≤ sWorkers2.maxWorkers ∧
    selectSourceFiles sWorkers2.sourceFolder [fileA, fileB, fileC] ≠ [] ∧
    (performSort sWorkers2 [fileA, fileB, fileC] (fun _ => envWork)).2.countP
        Event.isDelay =
      (chunkList sWorkers2.maxWorkers
        (selectSourceFiles sWorkers2.sourceFolder [fileA, fileB, fileC])).length - 1 :=
  ⟨by decide, by decide,
    (pacing_delay_between_windows sWorkers2 [fileA, fileB, fileC] (fun _ => envWork)
      (by decide) (by decide)).2.2⟩

/-- C10.  A provider response whose extracted text field is empty or
whitespace-only yields no label — the same soft-failure path as an absent
field (`classifyNote` returns `null` either way) — and the document is
consequently not moved. -/
theorem blank_response_yields_no_label
    (s : Settings) (name : String) (env : DocEnv) (t : String)
    (hblank : jsTrim t = "")
    (hapi : env.apiResult = ApiResult.returned (callApiExtract (some t))) :
    classifyNote s.aiModel env.apiResult = none ∧
    classifyNote s.aiModel (ApiResult.returned (callApiExtract none)) = none ∧
    (classifyAndMoveNote s name env).1 = false ∧
    (classifyAndMoveNote s name env).2.countP Event.isMoveDoc = 0 := by
  have hnone : classifyNote s.aiModel env.apiResult = none := by
    rw [hapi]
    unfold callApiExtract classifyNote
    dsimp only
    by_cases ht : t == ""
    · rw [if_pos ht]
      split <;> rfl
    · rw [if_neg ht]
      by_cases hm : modelIsKnown s.aiModel
      · rw [if_pos hm]
        dsimp only
        rw [if_pos (beq_iff_eq.mpr hblank)]
      · rw [if_neg hm]
  have habsent : classifyNote s.aiModel (ApiResult.returned (callApiExtract none)) = none := by
    unfold callApiExtract classifyNote
    split <;> rfl
  obtain ⟨h1, h2⟩ := classifyAndMoveNote_no_label s name env hnone
  exact ⟨hnone, habsent, h1, h2⟩

/-- C10, witness at a concrete input: a whitespace-only response field. -/
theorem blank_response_yields_no_label_witness :
    jsTrim "   " = "" ∧
    envWsResponse.apiResult = ApiResult.returned (callApiExtract (some "   ")) ∧
    (classifyNote sWorkOnly.aiModel envWsResponse.apiResult = none ∧
     (classifyAndMoveNote sWorkOnly "a.md" envWsResponse).1 = false) :=
  ⟨by decide, rfl,
    ⟨(blank_response_yields_no_label sWorkOnly "a.md" envWsResponse "   "
        (by decide) rfl).1,
      (blank_response_yields_no_label sWorkOnly "a.md" envWsResponse "   "
        (by decide) rfl).2.2.1⟩⟩

end AISorter
